import Mathlib

/-!
Shallow embedding of the datawagovau harvesters (`harvest_helpers.py`).

Strings of the Python 2 source are modelled as `List Char`.  Functions that can
raise an uncaught exception (`IndexError` from negative-index access, the
`[0]` comprehension index, `split(":")[1]`) return `Option`/`Except`, with
`none`/`.error` marking the raised exception.  `datetime.now()` is passed in as
an explicit `now` argument (already formatted, as the code only ever formats it).
-/

namespace Harvesters

/-- Python `str.split()` whitespace: space, tab, newline, carriage return,
vertical tab, form feed. -/
def isWS (c : Char) : Bool :=
  c.toNat = 32 || c.toNat = 9 || c.toNat = 10 || c.toNat = 13 || c.toNat = 11 || c.toNat = 12

/-- Accumulator worker for `splitWS`; `acc` holds the current token reversed. -/
def splitWSAux : List Char → List Char → List (List Char)
  | [], acc => match acc with
    | [] => []
    | _ :: _ => [acc.reverse]
  | c :: rest, acc =>
    if isWS c then
      match acc with
      | [] => splitWSAux rest []
      | _ :: _ => acc.reverse :: splitWSAux rest []
    else splitWSAux rest (c :: acc)

/-- Python `str.split()` with no argument: split on runs of whitespace,
discarding empty tokens. -/
def splitWS (s : List Char) : List (List Char) := splitWSAux s []

/-- Python `" ".join(toks)`. -/
def joinToks : List (List Char) → List Char
  | [] => []
  | [t] => t
  | t :: ts => t ++ ' ' :: joinToks ts

/-- ASCII lowercase letter, the `[a-z]` of the normalization regex. -/
def lowerAZ (c : Char) : Bool := 'a' ≤ c && c ≤ 'z'

/-- Model of `re.sub(r"[a-z]\(", u" (", text)`: each (non-overlapping,
left-to-right) occurrence of a lowercase letter immediately followed by `(`
is replaced by `" ("` — the lowercase letter is consumed by the match and
does not reappear in the replacement. -/
def normalizeParens : List Char → List Char
  | c :: d :: rest =>
    if lowerAZ c && d == '(' then ' ' :: '(' :: normalizeParens rest
    else c :: normalizeParens (d :: rest)
  | s => s

/-- No lowercase letter is immediately followed by `(` anywhere in the list
(i.e. the normalization regex has no match). -/
def noLowerParen : List Char → Bool
  | c :: d :: rest => !(lowerAZ c && d == '(') && noLowerParen (d :: rest)
  | _ => true

/-- Python `s.replace("(", "")`. -/
def stripLParen (s : List Char) : List Char := s.filter (fun c => c ≠ '(')

/-- Python `s.replace(")", "")`. -/
def stripRParen (s : List Char) : List Char := s.filter (fun c => c ≠ ')')

/-- Python `s.replace("(", "").replace(")", "")`. -/
def stripParens (s : List Char) : List Char :=
  (s.filter (fun c => c ≠ '(')).filter (fun c => c ≠ ')')

/-- Python 2 `str.lower()` on one ASCII character. -/
def pyLowerChar (c : Char) : Char :=
  if 'A' ≤ c ∧ c ≤ 'Z' then Char.ofNat (c.toNat + 32) else c

/-- Python 2 `str.lower()`. -/
def pyLower (s : List Char) : List Char := s.map pyLowerChar

/-- Python 2 `str.upper()` on one ASCII character. -/
def pyUpperChar (c : Char) : Char :=
  if 'a' ≤ c ∧ c ≤ 'z' then Char.ofNat (c.toNat - 32) else c

/-- Python 2 `str.upper()`. -/
def pyUpper (s : List Char) : List Char := s.map pyUpperChar

/-- ASCII digit value of a character, the `\d` of `_strptime`'s regexes. -/
def digitVal? (c : Char) : Option Nat :=
  if 48 ≤ c.toNat ∧ c.toNat ≤ 57 then some (c.toNat - 48) else none

/-- A 1-or-2-digit numeric field of `_strptime` (e.g. `%d` is
`3[01]|[12]\d|0[1-9]|[1-9]`): two digits are consumed when their value lies in
`[lo2, hi2]`, else one digit is consumed when its value is at least `lo1`.
Because every such field is followed by a non-digit literal (or the end of the
pattern), this greedy reading agrees with the regex's alternation order. -/
def parseNum2 (lo2 hi2 lo1 : Nat) : List Char → Option (Nat × List Char)
  | c1 :: c2 :: rest =>
    match digitVal? c1, digitVal? c2 with
    | some a, some b =>
      if lo2 ≤ 10 * a + b ∧ 10 * a + b ≤ hi2 then some (10 * a + b, rest)
      else if lo1 ≤ a then some (a, c2 :: rest) else none
    | some a, none => if lo1 ≤ a then some (a, c2 :: rest) else none
    | none, _ => none
  | [c1] =>
    match digitVal? c1 with
    | some a => if lo1 ≤ a then some (a, []) else none
    | none => none
  | [] => none

/-- The `%Y` field of `_strptime`: exactly four digits. -/
def parse4 : List Char → Option (Nat × List Char)
  | c1 :: c2 :: c3 :: c4 :: rest =>
    match digitVal? c1, digitVal? c2, digitVal? c3, digitVal? c4 with
    | some a, some b, some c, some d => some (1000 * a + 100 * b + 10 * c + d, rest)
    | _, _, _, _ => none
  | _ => none

/-- A literal character of the strptime format string. -/
def expectChar (c : Char) : List Char → Option (List Char)
  | d :: rest => if d = c then some rest else none
  | [] => none

/-- Gregorian leap year, as used by `datetime`. -/
def isLeap (y : Nat) : Bool := y % 4 = 0 && (y % 100 ≠ 0 || y % 400 = 0)

/-- Length of a month, as validated by the `datetime` constructor. -/
def daysInMonth (m y : Nat) : Nat :=
  if m = 2 then (if isLeap y then 29 else 28)
  else if m = 4 ∨ m = 6 ∨ m = 9 ∨ m = 11 then 30 else 31

/-- Model of `datetime.strptime(d, "%d-%m-%Y %H:%M:%S")`: the `_strptime`
regex match (whole string), followed by the `datetime` constructor's range
checks (year at least `MINYEAR = 1`, day fits the month, second at most 59 —
the regex itself admits leap seconds 60/61 which the constructor rejects).
Returns `(day, month, year, hour, minute, second)`; `none` is the
`ValueError` caught by `parse_name`. -/
def strptime_dmY_HMS (s : List Char) : Option (Nat × Nat × Nat × Nat × Nat × Nat) :=
  match parseNum2 1 31 1 s with
  | none => none
  | some (dd, s) =>
  match expectChar '-' s with
  | none => none
  | some s =>
  match parseNum2 1 12 1 s with
  | none => none
  | some (mm, s) =>
  match expectChar '-' s with
  | none => none
  | some s =>
  match parse4 s with
  | none => none
  | some (yy, s) =>
  match expectChar ' ' s with
  | none => none
  | some s =>
  match parseNum2 0 23 0 s with
  | none => none
  | some (hh, s) =>
  match expectChar ':' s with
  | none => none
  | some s =>
  match parseNum2 0 59 0 s with
  | none => none
  | some (mi, s) =>
  match expectChar ':' s with
  | none => none
  | some s =>
  match parseNum2 0 61 0 s with
  | none => none
  | some (ss, s) =>
  if s = [] ∧ 1 ≤ yy ∧ dd ≤ daysInMonth mm yy ∧ ss ≤ 59 then
    some (dd, mm, yy, hh, mi, ss)
  else none

/-- Two-digit zero-padded decimal, as produced by `strftime` `%d`/`%m` etc. -/
def pad2 (n : Nat) : List Char := [Nat.digitChar (n / 10), Nat.digitChar (n % 10)]

/-- Four-digit zero-padded decimal, as produced by `strftime` `%Y`. -/
def pad4 (n : Nat) : List Char :=
  [Nat.digitChar (n / 1000), Nat.digitChar (n / 100 % 10),
   Nat.digitChar (n / 10 % 10), Nat.digitChar (n % 10)]

/-- The `strftime("%Y-%m-%dT%H:%M:%S")` serialization. -/
def isoFmt (yy mm dd hh mi ss : Nat) : List Char :=
  pad4 yy ++ '-' :: (pad2 mm ++ '-' :: (pad2 dd ++ 'T' :: (pad2 hh ++ ':' :: (pad2 mi ++ ':' :: pad2 ss))))

/-- Model of the single source line
`datetime.strptime(d, "%d-%m-%Y %H:%M:%S").strftime("%Y-%m-%dT%H:%M:%S")`:
both calls sit inside the same `try/except ValueError`, and Python 2's
`strftime` raises `ValueError` for years before 1900, so a pre-1900 parse is
also reported as failure. -/
def pyDateRoundtrip (s : List Char) : Option (List Char) :=
  match strptime_dmY_HMS s with
  | none => none
  | some (dd, mm, yy, hh, mi, ss) =>
    if yy < 1900 then none else some (isoFmt yy mm dd hh mi ss)

/-- The token-level body of `parse_name`, applied after normalization and
whitespace splitting.  `none` models an uncaught `IndexError` from the
negative-index accesses `p[-1]`, `p[-2]`, `p[-chop_off]`.  The result mirrors
the returned `(t, n, dt)` tuple. -/
def parse_name_toks (now : List Char) (p : List (List Char)) :
    Option (List Char × Option (List Char) × List Char) :=
  match p.getLast? with
  | none => none
  | some last =>
    if last.head? = some '(' then
      -- last part starts with a parenthesis: no date, chop_off = 1, dt = now
      if last.getLast? = some ')' then
        some (joinToks p.dropLast, some (pyLower (stripParens last)), now)
      else
        some (joinToks p, none, now)
    else
      match p.dropLast.getLast? with
      | none => none
      | some penult =>
        let dtv := (pyDateRoundtrip (stripLParen penult ++ ' ' :: stripRParen last)).getD now
        if last.getLast? = some ')' then
          match p.dropLast.dropLast.getLast? with
          | none => none
          | some third =>
            some (joinToks p.dropLast.dropLast.dropLast,
                  some (pyLower (stripParens third)), dtv)
        else
          some (joinToks p, none, dtv)

/-- `parse_name(text)` of `harvest_helpers.py` (the `debug` prints are pure
noise and are dropped).  `now` is the already-formatted
`datetime.now().strftime("%Y-%m-%dT%H:%M:%S")`. -/
def parse_name (now : List Char) (text : List Char) :
    Option (List Char × Option (List Char) × List Char) :=
  parse_name_toks now (splitWS (normalizeParens text))

/-- Fixed `now` used by the concrete witnesses and counterexamples. -/
def now0 : List Char := "2015-10-08T17:14:42".data

/-! ### Resources and the upsert reconciler -/

/-- One CKAN resource dict.  Only the keys the harvesters ever set are
modelled; `extra` carries the per-format `"<fmt>_layer"` key. -/
structure Resource where
  url : String
  description : String := ""
  format : String := ""
  rname : String := ""
  extra : List (String × String) := []
deriving DecidableEq, Repr

/-- `add_resource_to_list(resourcedict_list, resource_dict)`: append the
resource unless its `url` already occurs in the list. -/
def add_resource_to_list (resourcedict_list : List Resource) (resource_dict : Resource) :
    List Resource :=
  if resource_dict.url ∈ resourcedict_list.map Resource.url then resourcedict_list
  else resourcedict_list ++ [resource_dict]

/-- `add_resources_to_list(old, new)`: fold `add_resource_to_list` over the
new resources, starting from the old list. -/
def add_resources_to_list (old new : List Resource) : List Resource :=
  new.foldl add_resource_to_list old

/-- Transcription of the spec's words for the merge ("each new resource whose
url is not already present in the list built so far, appended in their given
order, first occurrence of each url wins"): worker that keeps the urls seen
so far. -/
def mergeNewAux (seen : List String) : List Resource → List Resource
  | [] => []
  | r :: rs =>
    if r.url ∈ seen then mergeNewAux seen rs
    else r :: mergeNewAux (r.url :: seen) rs

/-- Spec-side formulation of the merge: existing resources in order, followed
by the deduplicated new resources. -/
def merge_spec (old new : List Resource) : List Resource :=
  old ++ mergeNewAux (old.map Resource.url) new

/-- A CKAN package dict as seen by `upsert_dataset`: the `"name"` key may be
absent (the `has_key` check), the metadata fields are an association list,
and the resource list is separate because the reconciler rewrites it. -/
structure DataDict where
  name? : Option String
  meta : List (String × String)
  resources : List Resource
deriving DecidableEq, Repr

/-- Errors a ckanapi call can raise.  The source's bare `except:` does not
distinguish them. -/
inductive CkanErr where
  | notFound
  | timeout
  | rejected
deriving DecidableEq, Repr

/-- One write/read issued to the ckanapi, recorded in order. -/
inductive CatOp where
  | package_show (n : String)
  | package_create (d : DataDict)
  | package_update (d : DataDict)
deriving DecidableEq, Repr

/-- The ckanapi collaborator: what each call would return (or raise). -/
structure Catalog where
  showRes : String → Except CkanErr DataDict
  createRes : DataDict → Except CkanErr DataDict
  updateRes : DataDict → Except CkanErr DataDict

/-- Result of `upsert_dataset`: an early `return None`, a returned package,
or an uncaught ckanapi exception. -/
inductive Outcome where
  | skipped
  | done (p : DataDict)
  | raised (e : CkanErr)
deriving DecidableEq, Repr

/-- The package dict submitted to `package_update` in the found branch:
metadata from the draft or the stored package according to
`overwrite_metadata`, resources replaced by the drop-or-merge list. -/
def updPayload (overwrite_metadata drop_existing_resources : Bool)
    (data package : DataDict) : DataDict :=
  { (if overwrite_metadata then data else package) with
    resources :=
      if drop_existing_resources then data.resources
      else add_resources_to_list package.resources data.resources }

/-- `upsert_dataset(data_dict, ckanapi, overwrite_metadata,
drop_existing_resources)`.  Returns the outcome together with the ordered
trace of catalog calls that were issued.  The bare `except:` around
`package_show` sends every probe failure — not-found or otherwise — into the
create branch. -/
def upsert_dataset (cat : Catalog) (data? : Option DataDict)
    (overwrite_metadata : Bool := true) (drop_existing_resources : Bool := true) :
    Outcome × List CatOp :=
  match data? with
  | none => (Outcome.skipped, [])
  | some data =>
    match data.name? with
    | none => (Outcome.skipped, [])
    | some n =>
      match cat.showRes n with
      | Except.error _ =>
        -- any failure of the probe is caught and answered with a create
        match cat.createRes data with
        | Except.ok p => (Outcome.done p, [CatOp.package_show n, CatOp.package_create data])
        | Except.error e => (Outcome.raised e, [CatOp.package_show n, CatOp.package_create data])
      | Except.ok package =>
        let pkg := updPayload overwrite_metadata drop_existing_resources data package
        match cat.updateRes pkg with
        | Except.ok p => (Outcome.done p, [CatOp.package_show n, CatOp.package_update pkg])
        | Except.error e => (Outcome.raised e, [CatOp.package_show n, CatOp.package_update pkg])

/-! ### The package mapper `wxs_to_dict` -/

/-- `make_slip_wfs_name(dataset_name)`. -/
def make_slip_wfs_name (dataset_name : String) : String :=
  "slip:" ++ ⟨pyUpper dataset_name.data⟩

/-- Python `s.split(sep)` for a one-character separator: split at every
occurrence, keeping empty pieces; the result is never the empty list. -/
def splitOn (sep : Char) : List Char → List (List Char)
  | [] => [[]]
  | c :: rest =>
    let r := splitOn sep rest
    if c = sep then [] :: r
    else match r with
      | [] => [[c]]
      | t :: ts => (c :: t) :: ts

/-- `make_dataset_name(slip_wfs_name)` = `slip_wfs_name.split(":")[1]`;
`none` is the `IndexError` raised when the name has no colon. -/
def make_dataset_name (slip_wfs_name : String) : Option String :=
  ((splitOn ':' slip_wfs_name.data)[1]?).map fun l => ⟨l⟩

/-- An organisation entry of `org_dict`; `none` fields model absent keys
(the `has_key` checks).  The entries produced by `get_org_dict` are nonempty
dicts, so Python truthiness of the entry itself is its presence. -/
structure OrgEntry where
  id? : Option String := none
  title? : Option String := none
  extras? : Option (List (String × String)) := none
deriving DecidableEq, Repr

/-- A group entry of `group_dict`. -/
structure GroupEntry where
  id? : Option String := none
  gname? : Option String := none
deriving DecidableEq, Repr

/-- The slice of an `owslib` WMS/WFS content layer that `wxs_to_dict` reads.
`name?`/`parentTitle?` are `none` when the attribute access would raise
`AttributeError`; the bounding box stays an opaque type `B` because only its
serialized GeoJSON ever enters the record. -/
structure Layer (B : Type) where
  name? : Option String
  id : String
  title : String
  parentTitle? : Option String
  boundingBoxWGS84 : B

/-- The package dict assembled by `wxs_to_dict`, one field per `d[...] = `
assignment. -/
structure PackageDraft where
  tag_string : List String
  theme : Option String := none
  groups : List String := []
  name : String
  title : String
  notes : String
  owner_org : Option String
  data_portal : String
  data_homepage : String
  license_id : String
  author : String
  author_email : String
  maintainer_email : String
  maintainer : String
  privateFlag : Bool
  spatial : String
  published_on : String
  last_updated_on : String
  update_frequency : String
  resources : List Resource
deriving DecidableEq, Repr

/-- The Theme/Keywords/Group `try` block: `d["theme"] = p` happens before the
`grp_dict.get` that raises when the group is missing, so the theme survives
that failure; group id and tag are added only when present. -/
def theme_group_tags (parentTitle? : Option String)
    (group_dict : String → Option GroupEntry) :
    Option String × List String × List String :=
  let tag0 : List String := ["SLIP Classic", "Harvested"]
  match parentTitle? with
  | none => (none, [], tag0)
  | some p =>
    match group_dict p with
    | none => (some p, [], tag0)
    | some grp =>
      let groups := match grp.id? with
        | some gid => [gid]
        | none => []
      let tags := match grp.gname? with
        | some gn => tag0 ++ [gn]
        | none => tag0
      (some p, groups, tags)

/-- The Contact/Jurisdiction extraction from the owner organisation's extras:
`[x["value"] for x in extras if x["key"] == k][0]`, whose `[0]` raises
`IndexError` when the key is absent from a nonempty extras list. -/
def org_contact_juris (extras? : Option (List (String × String))) :
    Except Unit (String × String) :=
  match extras? with
  | none => Except.ok ("", "Western Australia (default)")
  | some ex =>
    if ex = [] then Except.ok ("", "Western Australia (default)")
    else
      match (ex.filter fun kv => kv.1 = "Contact").head? with
      | none => Except.error ()
      | some kc =>
        match (ex.filter fun kv => kv.1 = "Jurisdiction").head? with
        | none => Except.error ()
        | some kj => Except.ok (kc.2, kj.2)

/-- The fixed SLIP blurb interpolated into each endpoint resource. -/
def slip_description (ds_NAME : String) : String :=
  "when prompted, use your [SLIP](https://www2.landgate.wa.gov.au/" ++
  "web/guest/how-to-access-slip-services) " ++
  "username and password to preview the resource below " ++
  "or open the resource URL in a GIS application (e.g. QGIS or ArcGIS) as layer _" ++
  ds_NAME ++ "_."

/-- The fixed dataset notes interpolated with the dataset name. -/
def slip_notes (ds_NAME : String) : String :=
  "The dataset _" ++ ds_NAME ++ "_ has" ++
  " been sourced from Landgate's " ++
  "Shared Location Information Platform (SLIP) - the home for Western" ++
  " Australian government geospatial data.\n\nMany of the datasets in" ++
  " SLIP are free and publicly available to users who simply " ++
  "[sign up for a SLIP account](https://www2.landgate.wa.gov.au/web/guest" ++
  "/request-registration-type).\n\nFind out more about SLIP at " ++
  "[http://slip.landgate.wa.gov.au/](http://slip.landgate.wa.gov.au/)."

/-- `wxs_to_dict(layer, wxs_url, org_dict, group_dict, pdf_dict,
fallback_org_id, res_format)`.  `slugify` (the external `python-slugify`
library) and the float-serializing `bboxWGSs84_to_gjMP` are passed in as
opaque functions.  `Except.error ()` models an uncaught exception
(`IndexError` from `make_dataset_name`/`parse_name`/the extras
comprehension); `.ok none` is the "No dataset name found, skipping" early
return. -/
def wxs_to_dict {B : Type} (slugify : String → String) (bboxToGj : B → String)
    (now : List Char) (layer : Layer B) (wxs_url : String)
    (org_dict : String → Option OrgEntry)
    (group_dict : String → Option GroupEntry)
    (pdf_dict : String → Option String)
    (fallback_org_id : Option String := none)
    (res_format : String := "WMS") : Except Unit (Option PackageDraft) :=
  -- try: n = layer.name / except: n = make_dataset_name(layer.id); unused below
  match (match layer.name? with
         | some nm => some nm
         | none => make_dataset_name layer.id) with
  | none => Except.error ()
  | some _n =>
  match parse_name now layer.title.data with
  | none => Except.error ()
  | some (tc, nc?, dc) =>
  match nc? with
  | none => Except.ok none
  | some nc =>
    let ds_title : String := ⟨tc⟩
    let ds_name : String := ⟨nc⟩
    let date_pub : String := ⟨dc⟩
    let ds_NAME : String := ⟨pyUpper nc⟩
    let tgt := theme_group_tags layer.parentTitle? group_dict
    let org_name : String :=
      match splitOn '-' ds_name.data with
      | t :: _ => ⟨t⟩
      | [] => ""
    let owner_org? := org_dict org_name
    let owner_org_id : Option String :=
      match owner_org? with
      | some o => match o.id? with
        | some i => some i
        | none => fallback_org_id
      | none => fallback_org_id
    let owner_org_title : String :=
      match owner_org? with
      | some o => o.title?.getD ""
      | none => ""
    match org_contact_juris (owner_org?.bind OrgEntry.extras?) with
    | Except.error () => Except.error ()
    | Except.ok (owner_org_contact, _owner_org_jurisdiction) =>
      let pdf_url? := pdf_dict ds_name
      let pdf_resources : List Resource :=
        match pdf_url? with
        | some u =>
          [{ url := u, description := "Data Dictionary for " ++ ds_NAME,
             format := "PDF", rname := "Data dictionary and dataset metadata" }]
        | none => []
      let endpoint : Resource :=
        { url := wxs_url, description := slip_description ds_NAME,
          format := ⟨pyLower res_format.data⟩,
          rname := ds_title ++ " (" ++ ds_NAME ++ ") " ++ ⟨pyUpper res_format.data⟩,
          extra := [(⟨pyLower res_format.data⟩ ++ "_layer", ds_NAME)] }
      Except.ok (some
        { tag_string := tgt.2.2
          theme := tgt.1
          groups := tgt.2.1
          name := slugify ds_title
          title := ds_title
          notes := slip_notes ds_NAME
          owner_org := owner_org_id
          data_portal := "http://slip.landgate.wa.gov.au/"
          data_homepage := pdf_url?.getD ""
          license_id := "cc-by-sa"
          author := owner_org_title
          author_email := owner_org_contact
          maintainer_email := "customerservice@landgate.wa.gov.au"
          maintainer := "Landgate"
          privateFlag := false
          spatial := bboxToGj layer.boundingBoxWGS84
          published_on := date_pub
          last_updated_on := date_pub
          update_frequency := "frequent"
          resources := pdf_resources ++ [endpoint] })

/-- Projection used to compare the dataset keys of two mapper runs. -/
def draftName? (r : Except Unit (Option PackageDraft)) : Option String :=
  match r with
  | Except.ok (some d) => some d.name
  | _ => none

/-! ### Concrete fixtures for witnesses and counterexamples -/

def res_a : Resource := { url := "a" }

def res_b : Resource := { url := "b" }

def res_b2 : Resource := { url := "b", rname := "incoming copy of b" }

def res_c : Resource := { url := "c" }

def res_u : Resource := { url := "u" }

def res_u2 : Resource := { url := "u", rname := "second resource with url u" }

/-- A stored package with resources `a`, `b`. -/
def existing0 : DataDict :=
  { name? := some "n", meta := [("title", "Old title")], resources := [res_a, res_b] }

/-- A draft with resources `b`, `c`. -/
def draft0 : DataDict :=
  { name? := some "n", meta := [("title", "New title")], resources := [res_b2, res_c] }

/-- A draft whose own resource list repeats the url `u`. -/
def draftDup : DataDict :=
  { name? := some "n", meta := [], resources := [res_u, res_u2] }

/-- A catalog whose probe finds `existing0` and whose writes succeed. -/
def cat0 : Catalog :=
  { showRes := fun _ => Except.ok existing0
    createRes := Except.ok
    updateRes := Except.ok }

/-- A catalog whose probe fails with a timeout and whose writes succeed. -/
def catTimeout : Catalog :=
  { showRes := fun _ => Except.error CkanErr.timeout
    createRes := Except.ok
    updateRes := Except.ok }

/-- Identity stand-in for the external `slugify` library function. -/
def slug_id : String → String := fun s => s

/-- Trivial stand-in for the bounding-box serializer. -/
def bbox0 : Unit → String := fun _ => ""

/-- A WMS layer whose display title carries identifier `BAR-001`. -/
def layer1 : Layer Unit :=
  { name? := some "AAA-111", id := "slip:AAA-111",
    title := "Foo (BAR-001) (03-11-2008 15:07:44)",
    parentTitle? := none, boundingBoxWGS84 := () }

/-- Same display title as `layer1` but a different identifier field. -/
def layer2 : Layer Unit := { layer1 with name? := some "BBB-222" }

/-- Token lists on which `parse_name`'s positional indexing cannot raise:
nonempty, and either the last token starts with `(`, or there are at least
three tokens, or exactly two whose last does not end with `)`. -/
def parseTotalDomain (p : List (List Char)) : Bool :=
  match p.getLast? with
  | none => false
  | some last =>
    (last.head? == some '(') || decide (3 ≤ p.length) ||
      (decide (p.length = 2) && !(last.getLast? == some ')'))

/-- The parenthesized identifier token `"(ID)"`. -/
def idTok (ID : List Char) : List Char := '(' :: (ID ++ [')'])

/-- The date token `"(DD-MM-YYYY"` of a well-formed dated title. -/
def dateTok (dd mm yy : Nat) : List Char :=
  '(' :: (pad2 dd ++ '-' :: (pad2 mm ++ '-' :: pad4 yy))

/-- The time token `"HH:MM:SS)"` of a well-formed dated title. -/
def timeTok (hh mi ss : Nat) : List Char :=
  (pad2 hh ++ ':' :: (pad2 mi ++ ':' :: pad2 ss)) ++ [')']

/-- The record `wxs_to_dict` produces for `layer1` with empty lookups,
identity slugify, trivial bbox serializer and endpoint url "u". -/
def draft1 : PackageDraft :=
  { tag_string := ["SLIP Classic", "Harvested"]
    theme := none
    groups := []
    name := "Foo"
    title := "Foo"
    notes := slip_notes "BAR-001"
    owner_org := none
    data_portal := "http://slip.landgate.wa.gov.au/"
    data_homepage := ""
    license_id := "cc-by-sa"
    author := ""
    author_email := ""
    maintainer_email := "customerservice@landgate.wa.gov.au"
    maintainer := "Landgate"
    privateFlag := false
    spatial := ""
    published_on := "2008-11-03T15:07:44"
    last_updated_on := "2008-11-03T15:07:44"
    update_frequency := "frequent"
    resources :=
      [{ url := "u", description := slip_description "BAR-001", format := "wms",
         rname := "Foo (BAR-001) WMS", extra := [("wms_layer", "BAR-001")] }] }

end Harvesters

namespace Harvesters

/-! ## Helper lemmas -/

theorem normalizeParens_length (s : List Char) :
    (normalizeParens s).length = s.length := by
  induction s using normalizeParens.induct with
  | case1 c d rest h ih => simp [normalizeParens, h, ih]
  | case2 c d rest h ih => simp [normalizeParens, h, ih]
  | case3 s h1 =>
    match s with
    | [] => rfl
    | [c] => rfl
    | a :: b :: t => exact absurd rfl (h1 a b t)

theorem normalizeParens_head (d : Char) (rest : List Char) :
    (normalizeParens (d :: rest)).head? = some d ∨
    (normalizeParens (d :: rest)).head? = some ' ' := by
  cases rest with
  | nil => left; rfl
  | cons e rest' =>
    by_cases h : (lowerAZ d && e == '(') = true
    · right; simp [normalizeParens, h]
    · left; simp [normalizeParens, h]

theorem noLowerParen_cons (c : Char) (l : List Char) (hc : lowerAZ c = false) :
    noLowerParen (c :: l) = noLowerParen l := by
  cases l with
  | nil => rfl
  | cons d l' => simp [noLowerParen, hc]

theorem noLowerParen_normalizeParens (s : List Char) :
    noLowerParen (normalizeParens s) = true := by
  induction s using normalizeParens.induct with
  | case1 c d rest h ih =>
    simp only [normalizeParens, h, if_true]
    rw [noLowerParen_cons ' ' _ (by decide), noLowerParen_cons '(' _ (by decide)]
    exact ih
  | case2 c d rest h ih =>
    simp only [normalizeParens, h, if_false]
    have hne : normalizeParens (d :: rest) ≠ [] := by
      intro hn
      have := normalizeParens_length (d :: rest)
      rw [hn] at this
      simp at this
    obtain ⟨x, t, hx⟩ := List.exists_cons_of_ne_nil hne
    have hxd : x = d ∨ x = ' ' := by
      rcases normalizeParens_head d rest with h' | h' <;>
        rw [hx] at h' <;> simp at h' <;> [left; right] <;> exact h'
    rw [hx]
    rw [hx] at ih
    simp only [noLowerParen, ih, Bool.and_true]
    rcases hxd with hxe | hxe <;> rw [hxe]
    · have hf : (lowerAZ c && d == '(') = false := by
        revert h; cases (lowerAZ c && d == '(') <;> simp
      rw [hf]
      rfl
    · have hf : (' ' == '(') = false := by decide
      rw [hf, Bool.and_false]
      rfl
  | case3 s h1 =>
    match s with
    | [] => rfl
    | [c] => rfl
    | a :: b :: t => exact absurd rfl (h1 a b t)

theorem normalizeParens_id_of_clean (s : List Char) (h : noLowerParen s = true) :
    normalizeParens s = s := by
  induction s using normalizeParens.induct with
  | case1 c d rest h' ih =>
    exfalso
    simp only [noLowerParen, h'] at h
    simp at h
  | case2 c d rest h' ih =>
    simp only [noLowerParen, Bool.and_eq_true] at h
    have hcnd : (lowerAZ c && d == '(') = false := by
      revert h'; cases (lowerAZ c && d == '(') <;> simp
    simp [normalizeParens, hcnd, ih h.2]
  | case3 s h1 =>
    match s with
    | [] => rfl
    | [c] => rfl
    | a :: b :: t => exact absurd rfl (h1 a b t)

/-! Tokenization lemmas. -/

theorem splitWSAux_token (t : List Char) (ht : ∀ c ∈ t, isWS c = false) :
    ∀ (s' acc : List Char), splitWSAux (t ++ s') acc = splitWSAux s' (t.reverse ++ acc) := by
  induction t with
  | nil => intro s' acc; simp
  | cons c t ih =>
    intro s' acc
    have hc : isWS c = false := ht c (by simp)
    have ht' : ∀ d ∈ t, isWS d = false := fun d hd => ht d (by simp [hd])
    simp only [List.cons_append, splitWSAux, hc, Bool.false_eq_true, if_false,
      List.append_eq]
    rw [ih ht' s' (c :: acc)]
    simp

theorem splitWS_token_sep (t : List Char) (h : t ≠ []) (ht : ∀ c ∈ t, isWS c = false)
    (R : List Char) : splitWS (t ++ ' ' :: R) = t :: splitWS R := by
  have hrev : t.reverse ≠ [] := by simpa using h
  obtain ⟨a, as, ha⟩ := List.exists_cons_of_ne_nil hrev
  unfold splitWS
  rw [splitWSAux_token t ht (' ' :: R) [], List.append_nil, ha]
  show splitWSAux (' ' :: R) (a :: as) = t :: splitWSAux R []
  have hws : isWS ' ' = true := by decide
  simp only [splitWSAux, hws, if_true]
  rw [← ha, List.reverse_reverse]

theorem splitWS_single (t : List Char) (h : t ≠ []) (ht : ∀ c ∈ t, isWS c = false) :
    splitWS t = [t] := by
  have hrev : t.reverse ≠ [] := by simpa using h
  obtain ⟨a, as, ha⟩ := List.exists_cons_of_ne_nil hrev
  unfold splitWS
  have h0 := splitWSAux_token t ht [] []
  rw [List.append_nil, List.append_nil] at h0
  rw [h0, ha]
  show splitWSAux [] (a :: as) = [t]
  simp only [splitWSAux]
  rw [← ha, List.reverse_reverse]

theorem splitWS_joinToks (toks : List (List Char))
    (h : ∀ t ∈ toks, t ≠ [] ∧ ∀ c ∈ t, isWS c = false) :
    splitWS (joinToks toks) = toks := by
  induction toks with
  | nil => rfl
  | cons t ts ih =>
    cases ts with
    | nil =>
      show splitWS t = [t]
      exact splitWS_single t (h t (by simp)).1 (h t (by simp)).2
    | cons t' ts' =>
      have hj : joinToks (t :: t' :: ts') = t ++ ' ' :: joinToks (t' :: ts') := rfl
      rw [hj, splitWS_token_sep t (h t (by simp)).1 (h t (by simp)).2]
      rw [ih (fun u hu => h u (by simp [hu]))]

/-! Digit and date-parsing lemmas. -/

theorem digitChar_spec (k : Nat) (hk : k ≤ 9) :
    digitVal? (Nat.digitChar k) = some k ∧ isWS (Nat.digitChar k) = false ∧
    Nat.digitChar k ≠ '(' ∧ Nat.digitChar k ≠ ')' := by
  interval_cases k <;> exact ⟨by decide, by decide, by decide, by decide⟩

theorem parseNum2_pad2 (lo2 hi2 lo1 n : Nat) (h2 : lo2 ≤ n) (h2' : n ≤ hi2)
    (h99 : n ≤ 99) (rest : List Char) :
    parseNum2 lo2 hi2 lo1 (pad2 n ++ rest) = some (n, rest) := by
  have hd1 : digitVal? (Nat.digitChar (n / 10)) = some (n / 10) :=
    (digitChar_spec _ (by omega)).1
  have hd2 : digitVal? (Nat.digitChar (n % 10)) = some (n % 10) :=
    (digitChar_spec _ (by omega)).1
  have hn : 10 * (n / 10) + n % 10 = n := by omega
  simp only [pad2, List.cons_append, List.nil_append, parseNum2, hd1, hd2, hn]
  rw [if_pos ⟨h2, h2'⟩]

theorem parseNum2_pad2_nil (lo2 hi2 lo1 n : Nat) (h2 : lo2 ≤ n) (h2' : n ≤ hi2)
    (h99 : n ≤ 99) : parseNum2 lo2 hi2 lo1 (pad2 n) = some (n, []) := by
  have := parseNum2_pad2 lo2 hi2 lo1 n h2 h2' h99 []
  simpa using this

theorem parse4_pad4 (n : Nat) (h : n ≤ 9999) (rest : List Char) :
    parse4 (pad4 n ++ rest) = some (n, rest) := by
  have hd1 : digitVal? (Nat.digitChar (n / 1000)) = some (n / 1000) :=
    (digitChar_spec _ (by omega)).1
  have hd2 : digitVal? (Nat.digitChar (n / 100 % 10)) = some (n / 100 % 10) :=
    (digitChar_spec _ (by omega)).1
  have hd3 : digitVal? (Nat.digitChar (n / 10 % 10)) = some (n / 10 % 10) :=
    (digitChar_spec _ (by omega)).1
  have hd4 : digitVal? (Nat.digitChar (n % 10)) = some (n % 10) :=
    (digitChar_spec _ (by omega)).1
  have hn : 1000 * (n / 1000) + 100 * (n / 100 % 10) + 10 * (n / 10 % 10) + n % 10 = n := by
    omega
  simp only [pad4, List.cons_append, List.nil_append, parse4, hd1, hd2, hd3, hd4, hn]

theorem expectChar_self (c : Char) (rest : List Char) :
    expectChar c (c :: rest) = some rest := by
  simp [expectChar]

theorem daysInMonth_le_31 (m y : Nat) : daysInMonth m y ≤ 31 := by
  unfold daysInMonth
  split
  · split <;> omega
  · split <;> omega

theorem strptime_roundtrip (dd mm yy hh mi ss : Nat)
    (h1 : 1 ≤ dd) (h2 : dd ≤ daysInMonth mm yy) (h3 : 1 ≤ mm) (h4 : mm ≤ 12)
    (h5 : 1 ≤ yy) (h6 : yy ≤ 9999) (h7 : hh ≤ 23) (h8 : mi ≤ 59) (h9 : ss ≤ 59) :
    strptime_dmY_HMS (pad2 dd ++ '-' :: (pad2 mm ++ '-' :: (pad4 yy ++ ' ' ::
        (pad2 hh ++ ':' :: (pad2 mi ++ ':' :: pad2 ss)))))
      = some (dd, mm, yy, hh, mi, ss) := by
  have hdd31 : dd ≤ 31 := le_trans h2 (daysInMonth_le_31 mm yy)
  unfold strptime_dmY_HMS
  simp only [parseNum2_pad2 1 31 1 dd h1 hdd31 (by omega),
    parseNum2_pad2 1 12 1 mm h3 h4 (by omega),
    parse4_pad4 yy h6,
    parseNum2_pad2 0 23 0 hh (by omega) h7 (by omega),
    parseNum2_pad2 0 59 0 mi (by omega) h8 (by omega),
    parseNum2_pad2_nil 0 61 0 ss (by omega) (by omega) (by omega),
    expectChar_self]
  rw [if_pos ⟨trivial, h5, h2, h9⟩]

theorem pyDateRoundtrip_ok (dd mm yy hh mi ss : Nat)
    (h1 : 1 ≤ dd) (h2 : dd ≤ daysInMonth mm yy) (h3 : 1 ≤ mm) (h4 : mm ≤ 12)
    (h5 : 1900 ≤ yy) (h6 : yy ≤ 9999) (h7 : hh ≤ 23) (h8 : mi ≤ 59) (h9 : ss ≤ 59) :
    pyDateRoundtrip (pad2 dd ++ '-' :: (pad2 mm ++ '-' :: (pad4 yy ++ ' ' ::
        (pad2 hh ++ ':' :: (pad2 mi ++ ':' :: pad2 ss)))))
      = some (isoFmt yy mm dd hh mi ss) := by
  unfold pyDateRoundtrip
  rw [strptime_roundtrip dd mm yy hh mi ss h1 h2 h3 h4 (by omega) h6 h7 h8 h9]
  have hge : ¬ yy < 1900 := by omega
  simp [hge]

/-! Merge lemmas. -/

theorem mergeNewAux_congr : ∀ (l : List Resource) (s₁ s₂ : List String),
    (∀ u, u ∈ s₁ ↔ u ∈ s₂) → mergeNewAux s₁ l = mergeNewAux s₂ l := by
  intro l
  induction l with
  | nil => intro s₁ s₂ h; rfl
  | cons r rs ih =>
    intro s₁ s₂ h
    simp only [mergeNewAux]
    by_cases hr : r.url ∈ s₁
    · rw [if_pos hr, if_pos ((h r.url).1 hr)]
      exact ih s₁ s₂ h
    · rw [if_neg hr, if_neg (fun hh => hr ((h r.url).2 hh))]
      rw [ih (r.url :: s₁) (r.url :: s₂) (fun u => by simp [h u])]

theorem add_resources_eq_merge_spec : ∀ (new old : List Resource),
    add_resources_to_list old new = merge_spec old new := by
  intro new
  induction new with
  | nil => intro old; simp [add_resources_to_list, merge_spec, mergeNewAux]
  | cons r rs ih =>
    intro old
    simp only [add_resources_to_list, List.foldl_cons]
    by_cases hr : r.url ∈ old.map Resource.url
    · have ha : add_resource_to_list old r = old := by
        simp [add_resource_to_list, hr]
      rw [ha]
      have hi := ih old
      simp only [add_resources_to_list] at hi
      rw [hi]
      simp only [merge_spec, mergeNewAux]
      rw [if_pos hr]
    · have ha : add_resource_to_list old r = old ++ [r] := by
        simp [add_resource_to_list, hr]
      rw [ha]
      have hi := ih (old ++ [r])
      simp only [add_resources_to_list] at hi
      rw [hi]
      simp only [merge_spec, mergeNewAux]
      rw [if_neg hr, List.map_append]
      simp only [List.map_cons, List.map_nil]
      rw [mergeNewAux_congr rs (old.map Resource.url ++ [r.url])
        (r.url :: old.map Resource.url) (by intro u; simp [or_comm])]
      simp

theorem mergeNewAux_nodup : ∀ (l : List Resource) (seen : List String),
    ((mergeNewAux seen l).map Resource.url).Nodup ∧
    ∀ u ∈ (mergeNewAux seen l).map Resource.url, u ∉ seen := by
  intro l
  induction l with
  | nil => intro seen; exact ⟨by simp [mergeNewAux], by simp [mergeNewAux]⟩
  | cons r rs ih =>
    intro seen
    simp only [mergeNewAux]
    by_cases hr : r.url ∈ seen
    · rw [if_pos hr]
      exact ih seen
    · rw [if_neg hr]
      obtain ⟨hnd, hmem⟩ := ih (r.url :: seen)
      constructor
      · simp only [List.map_cons, List.nodup_cons]
        exact ⟨fun hin => (hmem _ hin) (by simp), hnd⟩
      · intro u hu
        simp only [List.map_cons, List.mem_cons] at hu
        rcases hu with rfl | hu
        · exact hr
        · exact fun hs => hmem u hu (by simp [hs])

theorem merge_spec_nodup (old new : List Resource) (h : (old.map Resource.url).Nodup) :
    ((merge_spec old new).map Resource.url).Nodup := by
  unfold merge_spec
  rw [List.map_append, List.nodup_append]
  refine ⟨h, (mergeNewAux_nodup new _).1, ?_⟩
  intro u hu hv
  exact (mergeNewAux_nodup new _).2 u hv hu

/-! Upsert evaluation lemma. -/

theorem upsert_found (cat : Catalog) (data existing : DataDict) (n : String)
    (ow de : Bool) (hname : data.name? = some n)
    (hshow : cat.showRes n = Except.ok existing) :
    upsert_dataset cat (some data) ow de =
      (match cat.updateRes (updPayload ow de data existing) with
       | Except.ok p => Outcome.done p
       | Except.error e => Outcome.raised e,
       [CatOp.package_show n, CatOp.package_update (updPayload ow de data existing)]) := by
  simp only [upsert_dataset, hname, hshow]
  cases cat.updateRes (updPayload ow de data existing) <;> rfl

/-- Evaluation of `parse_name_toks` on the branch where the last token does
not start with `(`: the date candidate is built from the last two tokens, a
failed parse falls back to `now`, and a trailing `)` selects the token three
from the end as identifier, chopping three tokens from the title. -/
theorem parse_toks_date_branch (now : List Char) (p : List (List Char))
    (last penult third : List Char)
    (hlast : p.getLast? = some last)
    (hpen : p.dropLast.getLast? = some penult)
    (hthird : p.dropLast.dropLast.getLast? = some third)
    (hstart : last.head? ≠ some '(')
    (hend : last.getLast? = some ')') :
    parse_name_toks now p =
      some (joinToks p.dropLast.dropLast.dropLast, some (pyLower (stripParens third)),
        (pyDateRoundtrip (stripLParen penult ++ ' ' :: stripRParen last)).getD now) := by
  simp only [parse_name_toks, hlast, hpen, hthird]
  rw [if_neg hstart, if_pos hend]

/-! ## Claim theorems -/

/-- C1: with `drop_existing_resources = False` and an existing record found,
the reconciler submits exactly the existing resources in their original order
followed by those new resources whose url is not already present in the list
built so far, in their given order, first occurrence of each url winning —
the spec-side `merge_spec` formulation. -/
theorem C1_merge_keeps_existing_appends_unique (ow : Bool) (cat : Catalog)
    (data existing : DataDict) (n : String)
    (hname : data.name? = some n) (hshow : cat.showRes n = Except.ok existing) :
    (upsert_dataset cat (some data) ow false).2 =
      [CatOp.package_show n,
       CatOp.package_update
         { (if ow then data else existing) with
           resources := merge_spec existing.resources data.resources }] := by
  rw [upsert_found cat data existing n ow false hname hshow]
  have hpay : updPayload ow false data existing =
      { (if ow then data else existing) with
        resources := merge_spec existing.resources data.resources } := by
    unfold updPayload
    rw [add_resources_eq_merge_spec]
    simp
  rw [hpay]

/-- Witness for C1 at the spec's example: existing `a, b` merged with new
`b, c` submits `a, b, c` (the stored copy of `b` is kept). -/
theorem C1_witness :
    (upsert_dataset cat0 (some draft0) true false).2 =
      [CatOp.package_show "n",
       CatOp.package_update { draft0 with resources := [res_a, res_b, res_c] }] :=
  (C1_merge_keeps_existing_appends_unique true cat0 draft0 existing0 "n" rfl rfl).trans
    (by decide)

/-- C4 counterexample: in drop mode the draft's resource list is submitted
verbatim, so a draft repeating url `u` puts two resources with equal urls
into the write. -/
theorem C4_cex_duplicate_url_submitted :
    (upsert_dataset cat0 (some draftDup) true true).2 =
      [CatOp.package_show "n", CatOp.package_update draftDup] ∧
    ¬ ((draftDup.resources.map Resource.url).Nodup) := by
  exact ⟨by decide, by decide⟩

/-- C4 amended: the submitted resource list has pairwise distinct urls in
both modes provided the existing record's urls and the draft's urls are
themselves duplicate-free; the merge step itself never introduces a
duplicate beyond those already in its inputs. -/
theorem C4_amended_nodup_urls (ow de : Bool) (cat : Catalog)
    (data existing : DataDict) (n : String)
    (hname : data.name? = some n) (hshow : cat.showRes n = Except.ok existing)
    (hold : (existing.resources.map Resource.url).Nodup)
    (hnew : (data.resources.map Resource.url).Nodup) :
    (upsert_dataset cat (some data) ow de).2 =
      [CatOp.package_show n, CatOp.package_update (updPayload ow de data existing)] ∧
    (((updPayload ow de data existing).resources).map Resource.url).Nodup := by
  constructor
  · rw [upsert_found cat data existing n ow de hname hshow]
  · unfold updPayload
    cases de
    · simp only [Bool.false_eq_true, if_false]
      rw [add_resources_eq_merge_spec]
      exact merge_spec_nodup _ _ hold
    · simpa using hnew

/-- Witness for C4 at the merge-mode example. -/
theorem C4_witness :
    (upsert_dataset cat0 (some draft0) true false).2 =
      [CatOp.package_show "n", CatOp.package_update (updPayload true false draft0 existing0)] ∧
    (((updPayload true false draft0 existing0).resources).map Resource.url).Nodup :=
  C4_amended_nodup_urls true false cat0 draft0 existing0 "n" rfl rfl
    (by decide) (by decide)

/-- C5: on tokenized input whose last token does not start with `(`, the
parser always treats the last two tokens as the date pair and attempts the
parse; a failed parse substitutes `now`, and a last token ending in `)`
still selects the identifier three tokens from the end (lowercased,
parentheses stripped) while chopping three tokens off the title. -/
theorem C5_date_pair_assumed_and_three_offset (now : List Char)
    (p : List (List Char)) (last penult third : List Char)
    (hlast : p.getLast? = some last)
    (hpen : p.dropLast.getLast? = some penult)
    (hthird : p.dropLast.dropLast.getLast? = some third)
    (hstart : last.head? ≠ some '(')
    (hend : last.getLast? = some ')') :
    parse_name_toks now p =
      some (joinToks p.dropLast.dropLast.dropLast, some (pyLower (stripParens third)),
        (pyDateRoundtrip (stripLParen penult ++ ' ' :: stripRParen last)).getD now) :=
  parse_toks_date_branch now p last penult third hlast hpen hthird hstart hend

/-- Witness for C5: a failing date pair still yields the 3-offset identifier
and the `now` fallback. -/
theorem C5_witness :
    parse_name_toks now0 ["A".data, "(id)".data, "x".data, "y)".data] =
      some ("A".data, some "id".data, now0) :=
  (C5_date_pair_assumed_and_three_offset now0
    ["A".data, "(id)".data, "x".data, "y)".data]
    "y)".data "x".data "(id)".data (by decide) (by decide) (by decide)
    (by decide) (by decide)).trans (by decide)

/-- C8 counterexample: a probe that raises a timeout is swallowed by the bare
`except:` — the reconciler then issues a create write for the draft and
reports success; nothing is propagated to the caller. -/
theorem C8_cex_timeout_probe_creates :
    upsert_dataset catTimeout (some draft0) true true =
      (Outcome.done draft0, [CatOp.package_show "n", CatOp.package_create draft0]) := by
  decide

/-- C8 amended: every probe failure (timeout included) is treated as
not-found and answered with a create of the draft; a rejected create or
update propagates as the client's own error (there is no wrapper error
type), and no further write follows it. -/
theorem C8_amended_probe_swallowed_create_raw_errors (ow de : Bool) (cat : Catalog)
    (data : DataDict) (n : String) (hname : data.name? = some n) :
    (∀ e, cat.showRes n = Except.error e →
      (upsert_dataset cat (some data) ow de).2 =
        [CatOp.package_show n, CatOp.package_create data] ∧
      (∀ p, cat.createRes data = Except.ok p →
        (upsert_dataset cat (some data) ow de).1 = Outcome.done p) ∧
      (∀ e', cat.createRes data = Except.error e' →
        (upsert_dataset cat (some data) ow de).1 = Outcome.raised e')) ∧
    (∀ existing e', cat.showRes n = Except.ok existing →
      cat.updateRes (updPayload ow de data existing) = Except.error e' →
      upsert_dataset cat (some data) ow de =
        (Outcome.raised e',
         [CatOp.package_show n, CatOp.package_update (updPayload ow de data existing)])) := by
  constructor
  · intro e he
    refine ⟨?_, ?_, ?_⟩
    · simp only [upsert_dataset, hname, he]
      cases cat.createRes data <;> rfl
    · intro p hp
      simp only [upsert_dataset, hname, he, hp]
    · intro e' he'
      simp only [upsert_dataset, hname, he, he']
  · intro existing e' hs hu
    rw [upsert_found cat data existing n ow de hname hs, hu]

/-- Witness for C8: the timeout catalog leads to a create of the draft. -/
theorem C8_witness :
    (upsert_dataset catTimeout (some draft0) false false).2 =
      [CatOp.package_show "n", CatOp.package_create draft0] ∧
    (upsert_dataset catTimeout (some draft0) false false).1 = Outcome.done draft0 :=
  ⟨((C8_amended_probe_swallowed_create_raw_errors false false catTimeout draft0 "n"
      rfl).1 CkanErr.timeout rfl).1,
   ((C8_amended_probe_swallowed_create_raw_errors false false catTimeout draft0 "n"
      rfl).1 CkanErr.timeout rfl).2.1 draft0 rfl⟩

/-- C9: with `overwrite_metadata = False` and an existing record found, the
submitted write is the stored record itself — every metadata field equal to
the stored one — with only the resources field replaced by the computed
list. -/
theorem C9_overwrite_off_submits_existing_metadata (de : Bool) (cat : Catalog)
    (data existing : DataDict) (n : String)
    (hname : data.name? = some n) (hshow : cat.showRes n = Except.ok existing) :
    (upsert_dataset cat (some data) false de).2 =
      [CatOp.package_show n,
       CatOp.package_update
         { existing with
           resources := if de then data.resources
             else add_resources_to_list existing.resources data.resources }] := by
  rw [upsert_found cat data existing n false de hname hshow]
  rfl

/-- Witness for C9: the update payload carries `existing0`'s metadata and the
merged resources. -/
theorem C9_witness :
    (upsert_dataset cat0 (some draft0) false false).2 =
      [CatOp.package_show "n",
       CatOp.package_update { existing0 with resources := [res_a, res_b, res_c] }] :=
  (C9_overwrite_off_submits_existing_metadata false cat0 draft0 existing0 "n" rfl
    rfl).trans (by decide)

/-- C2 counterexample: on the empty string (and a whitespace-only string) the
token list is empty, `p[-1]` raises `IndexError`, and no tuple is returned at
all. -/
theorem C2_cex_empty_input_raises :
    parse_name now0 "".data = none ∧ parse_name now0 "   ".data = none :=
  ⟨rfl, rfl⟩

/-- C2 amended: the parser returns a result whenever its token list (input
normalized, then split on whitespace) is nonempty and either the last token
starts with `(`, there are at least three tokens, or there are exactly two
and the last does not end with `)`; in the worst case (no parenthesis role
for the last token and a failed date parse) the result is the tokens
rejoined with single spaces, no identifier, and `now`.  Outside that domain
the positional indexing raises `IndexError`. -/
theorem C2_amended_total_on_domain (now text : List Char)
    (h : parseTotalDomain (splitWS (normalizeParens text)) = true) :
    (parse_name now text).isSome = true ∧
    (∀ last penult,
      (splitWS (normalizeParens text)).getLast? = some last →
      (splitWS (normalizeParens text)).dropLast.getLast? = some penult →
      last.head? ≠ some '(' → last.getLast? ≠ some ')' →
      pyDateRoundtrip (stripLParen penult ++ ' ' :: stripRParen last) = none →
      parse_name now text =
        some (joinToks (splitWS (normalizeParens text)), none, now)) := by
  constructor
  · unfold parseTotalDomain at h
    unfold parse_name parse_name_toks
    cases hp : (splitWS (normalizeParens text)).getLast? with
    | none => rw [hp] at h; exact absurd h (by simp)
    | some last =>
      rw [hp] at h
      simp only [Bool.or_eq_true, beq_iff_eq, decide_eq_true_eq, Bool.and_eq_true,
        Bool.not_eq_true', beq_eq_false_iff_ne, or_assoc] at h
      by_cases hh : last.head? = some '('
      · simp only [hh, if_true]
        split <;> rfl
      · rcases h with hc | hc | hc
        · exact absurd hc hh
        · have hd1 : (splitWS (normalizeParens text)).dropLast ≠ [] := by
            have := List.length_dropLast (splitWS (normalizeParens text))
            intro hnil
            rw [hnil] at this
            simp at this
            omega
          obtain ⟨penult, hpen⟩ :=
            Option.isSome_iff_exists.1 (List.getLast?_isSome.2 hd1)
          have hd2 : (splitWS (normalizeParens text)).dropLast.dropLast ≠ [] := by
            have := List.length_dropLast (splitWS (normalizeParens text)).dropLast
            have h2 := List.length_dropLast (splitWS (normalizeParens text))
            intro hnil
            rw [hnil] at this
            simp at this
            omega
          obtain ⟨third, hthird⟩ :=
            Option.isSome_iff_exists.1 (List.getLast?_isSome.2 hd2)
          simp only [hh, if_false, hpen, hthird]
          split <;> rfl
        · obtain ⟨hlen2, hnot⟩ := hc
          have hd1 : (splitWS (normalizeParens text)).dropLast ≠ [] := by
            have := List.length_dropLast (splitWS (normalizeParens text))
            intro hnil
            rw [hnil] at this
            simp at this
            omega
          obtain ⟨penult, hpen⟩ :=
            Option.isSome_iff_exists.1 (List.getLast?_isSome.2 hd1)
          simp only [hh, if_false, hpen]
          rw [if_neg hnot]
          rfl
  · intro last penult hlast hpen hh hend hdate
    unfold parse_name parse_name_toks
    simp only [hlast, hpen]
    rw [if_neg hh, if_neg hend, hdate]
    rfl

/-- Witness for C2: a two-token title with no trailing parenthesis parses to
the fallback tuple. -/
theorem C2_witness :
    (parse_name now0 "Virtual Mosaic".data).isSome = true ∧
    parse_name now0 "Virtual Mosaic".data =
      some (joinToks (splitWS (normalizeParens "Virtual Mosaic".data)), none, now0) :=
  ⟨(C2_amended_total_on_domain now0 "Virtual Mosaic".data (by decide)).1,
   (C2_amended_total_on_domain now0 "Virtual Mosaic".data (by decide)).2
     "Mosaic".data "Virtual".data (by decide) (by decide) (by decide) (by decide)
     (by decide)⟩

/-- C3 counterexample: normalizing `"Rivers(LGATE-053)"` deletes the
lowercase letter before the parenthesis: `'s'` occurs in the input but not
in the normalized text, so not every character of the original is kept. -/
theorem C3_cex_lowercase_letter_deleted :
    normalizeParens "Rivers(LGATE-053)".data = "River (LGATE-053)".data ∧
    's' ∈ "Rivers(LGATE-053)".data ∧
    's' ∉ normalizeParens "Rivers(LGATE-053)".data :=
  ⟨by decide, by decide, by decide⟩

/-- C3 amended: the normalization step replaces each lowercase letter that is
immediately followed by `(`, together with that letter, by `" ("`: the length
is preserved (a space is substituted for the deleted letter, not inserted),
afterwards no `(` immediately follows a lowercase letter, and text without
such a pattern is returned unchanged. -/
theorem C3_amended_normalization (s : List Char) :
    (normalizeParens s).length = s.length ∧
    noLowerParen (normalizeParens s) = true ∧
    (noLowerParen s = true → normalizeParens s = s) :=
  ⟨normalizeParens_length s, noLowerParen_normalizeParens s,
   normalizeParens_id_of_clean s⟩

/-- Witness for C3: clean text is untouched, and the repaired text keeps its
length. -/
theorem C3_witness :
    normalizeParens "Virtual Mosaic".data = "Virtual Mosaic".data ∧
    (normalizeParens "Rivers(X)".data).length = "Rivers(X)".data.length :=
  ⟨(C3_amended_normalization "Virtual Mosaic".data).2.2 (by decide),
   (C3_amended_normalization "Rivers(X)".data).1⟩

/-- C7 counterexample: `"Foo (ID) Bar"` contains the parenthesized token
`"(ID)"`, yet the parser returns identifier `None`, because only the final
token is ever consulted. -/
theorem C7_cex_inner_parenthetical_ignored :
    parse_name now0 "Foo (ID) Bar".data =
      some ("Foo (ID) Bar".data, none, now0) ∧
    "(ID)".data ∈ splitWS (normalizeParens "Foo (ID) Bar".data) ∧
    "(ID)".data.head? = some '(' ∧ ("(ID)".data).getLast? = some ')' :=
  ⟨by decide, by decide, by decide, by decide⟩

/-- C7 amended: when the parser returns, the identifier is `None` exactly
when the last token does not end with `)`; parenthesized tokens anywhere
else in the input are never consulted. -/
theorem C7_amended_identifier_iff_last_token_rparen (now text : List Char)
    (res : List Char × Option (List Char) × List Char)
    (h : parse_name now text = some res) (last : List Char)
    (hlast : (splitWS (normalizeParens text)).getLast? = some last) :
    res.2.1 = none ↔ last.getLast? ≠ some ')' := by
  simp only [parse_name, parse_name_toks, hlast] at h
  by_cases hh : last.head? = some '('
  · rw [if_pos hh] at h
    by_cases hend : last.getLast? = some ')'
    · rw [if_pos hend] at h
      obtain rfl := (Option.some.inj h).symm
      simp [hend]
    · rw [if_neg hend] at h
      obtain rfl := (Option.some.inj h).symm
      simp [hend]
  · rw [if_neg hh] at h
    cases hpen : (splitWS (normalizeParens text)).dropLast.getLast? with
    | none => rw [hpen] at h; exact absurd h (by simp)
    | some penult =>
      simp only [hpen] at h
      by_cases hend : last.getLast? = some ')'
      · rw [if_pos hend] at h
        cases hthird : (splitWS (normalizeParens text)).dropLast.dropLast.getLast? with
        | none => rw [hthird] at h; exact absurd h (by simp)
        | some third =>
          simp only [hthird] at h
          obtain rfl := (Option.some.inj h).symm
          simp [hend]
      · rw [if_neg hend] at h
        obtain rfl := (Option.some.inj h).symm
        simp [hend]

/-! Character-class lemmas for the well-formed dated-title shape. -/

theorem pad2_good (n : Nat) (h : n ≤ 99) :
    ∀ c ∈ pad2 n, isWS c = false ∧ c ≠ '(' ∧ c ≠ ')' := by
  intro c hc
  simp only [pad2, List.mem_cons, List.not_mem_nil, or_false] at hc
  rcases hc with rfl | rfl
  · exact ⟨(digitChar_spec _ (by omega)).2.1, (digitChar_spec _ (by omega)).2.2.1,
      (digitChar_spec _ (by omega)).2.2.2⟩
  · exact ⟨(digitChar_spec _ (by omega)).2.1, (digitChar_spec _ (by omega)).2.2.1,
      (digitChar_spec _ (by omega)).2.2.2⟩

theorem pad4_good (n : Nat) (h : n ≤ 9999) :
    ∀ c ∈ pad4 n, isWS c = false ∧ c ≠ '(' ∧ c ≠ ')' := by
  intro c hc
  simp only [pad4, List.mem_cons, List.not_mem_nil, or_false] at hc
  rcases hc with rfl | rfl | rfl | rfl <;>
    exact ⟨(digitChar_spec _ (by omega)).2.1, (digitChar_spec _ (by omega)).2.2.1,
      (digitChar_spec _ (by omega)).2.2.2⟩

theorem dateStr_chars (dd mm yy : Nat) (hdd : dd ≤ 99) (hmm : mm ≤ 99) (hyy : yy ≤ 9999) :
    ∀ c ∈ pad2 dd ++ '-' :: (pad2 mm ++ '-' :: pad4 yy),
      isWS c = false ∧ c ≠ '(' ∧ c ≠ ')' := by
  intro c hc
  simp only [List.mem_append, List.mem_cons] at hc
  rcases hc with hc | rfl | hc | rfl | hc
  · exact pad2_good dd hdd c hc
  · exact ⟨by decide, by decide, by decide⟩
  · exact pad2_good mm hmm c hc
  · exact ⟨by decide, by decide, by decide⟩
  · exact pad4_good yy hyy c hc

theorem timeStr_chars (hh mi ss : Nat) (hhh : hh ≤ 99) (hmi : mi ≤ 99) (hss : ss ≤ 99) :
    ∀ c ∈ pad2 hh ++ ':' :: (pad2 mi ++ ':' :: pad2 ss),
      isWS c = false ∧ c ≠ '(' ∧ c ≠ ')' := by
  intro c hc
  simp only [List.mem_append, List.mem_cons] at hc
  rcases hc with hc | rfl | hc | rfl | hc
  · exact pad2_good hh hhh c hc
  · exact ⟨by decide, by decide, by decide⟩
  · exact pad2_good mi hmi c hc
  · exact ⟨by decide, by decide, by decide⟩
  · exact pad2_good ss hss c hc

theorem idTok_tok (ID : List Char) (hID : ∀ c ∈ ID, isWS c = false) :
    idTok ID ≠ [] ∧ ∀ c ∈ idTok ID, isWS c = false := by
  constructor
  · simp [idTok]
  · intro c hc
    simp only [idTok, List.mem_cons, List.mem_append, List.not_mem_nil, or_false] at hc
    rcases hc with rfl | hc | rfl
    · decide
    · exact hID c hc
    · decide

theorem dateTok_tok (dd mm yy : Nat) (hdd : dd ≤ 99) (hmm : mm ≤ 99) (hyy : yy ≤ 9999) :
    dateTok dd mm yy ≠ [] ∧ ∀ c ∈ dateTok dd mm yy, isWS c = false := by
  constructor
  · simp [dateTok]
  · intro c hc
    simp only [dateTok, List.mem_cons] at hc
    rcases hc with rfl | hc
    · decide
    · exact (dateStr_chars dd mm yy hdd hmm hyy c hc).1

theorem timeTok_tok (hh mi ss : Nat) (hhh : hh ≤ 99) (hmi : mi ≤ 99) (hss : ss ≤ 99) :
    timeTok hh mi ss ≠ [] ∧ ∀ c ∈ timeTok hh mi ss, isWS c = false := by
  constructor
  · simp [timeTok]
  · intro c hc
    unfold timeTok at hc
    rcases List.mem_append.1 hc with hc | hc
    · exact (timeStr_chars hh mi ss hhh hmi hss c hc).1
    · simp only [List.mem_singleton] at hc
      subst hc
      decide

/-- C6: for every title of shape `"T (ID) (DD-MM-YYYY HH:MM:SS)"` whose date
is valid (calendar-valid, with a year the Python 2 `strftime` accepts:
1900–9999), the parser returns exactly the title tokens, the identifier
lowercased with parentheses stripped, and the date re-serialized as
ISO-8601 `YYYY-MM-DDTHH:MM:SS`. -/
theorem C6_dated_shape_exact (now : List Char) (T : List (List Char))
    (ID : List Char) (dd mm yy hh mi ss : Nat)
    (hT : ∀ t ∈ T, t ≠ [] ∧ ∀ c ∈ t, isWS c = false)
    (hID : ∀ c ∈ ID, isWS c = false)
    (hnorm : noLowerParen
      (joinToks (T ++ [idTok ID, dateTok dd mm yy, timeTok hh mi ss])) = true)
    (h1 : 1 ≤ dd) (h2 : dd ≤ daysInMonth mm yy) (h3 : 1 ≤ mm) (h4 : mm ≤ 12)
    (h5 : 1900 ≤ yy) (h6 : yy ≤ 9999) (h7 : hh ≤ 23) (h8 : mi ≤ 59) (h9 : ss ≤ 59) :
    parse_name now (joinToks (T ++ [idTok ID, dateTok dd mm yy, timeTok hh mi ss]))
      = some (joinToks T, some (pyLower (stripParens ID)), isoFmt yy mm dd hh mi ss) := by
  have hdd99 : dd ≤ 99 := le_trans h2 (le_trans (daysInMonth_le_31 mm yy) (by omega))
  have htoks : ∀ t ∈ T ++ [idTok ID, dateTok dd mm yy, timeTok hh mi ss],
      t ≠ [] ∧ ∀ c ∈ t, isWS c = false := by
    intro t ht
    rcases List.mem_append.1 ht with hmem | hmem
    · exact hT t hmem
    · simp only [List.mem_cons, List.not_mem_nil, or_false] at hmem
      rcases hmem with rfl | rfl | rfl
      · exact idTok_tok ID hID
      · exact dateTok_tok dd mm yy hdd99 (by omega) (by omega)
      · exact timeTok_tok hh mi ss (by omega) (by omega) (by omega)
  have hid := normalizeParens_id_of_clean _ hnorm
  unfold parse_name
  rw [hid, splitWS_joinToks _ htoks]
  have e1 : T ++ [idTok ID, dateTok dd mm yy, timeTok hh mi ss]
      = (T ++ [idTok ID, dateTok dd mm yy]) ++ [timeTok hh mi ss] := by simp
  have e2 : T ++ [idTok ID, dateTok dd mm yy]
      = (T ++ [idTok ID]) ++ [dateTok dd mm yy] := by simp
  have hlast : (T ++ [idTok ID, dateTok dd mm yy, timeTok hh mi ss]).getLast?
      = some (timeTok hh mi ss) := by
    rw [e1]; exact List.getLast?_concat _
  have hdrop1 : (T ++ [idTok ID, dateTok dd mm yy, timeTok hh mi ss]).dropLast
      = T ++ [idTok ID, dateTok dd mm yy] := by
    rw [e1]; exact List.dropLast_concat
  have hpen : (T ++ [idTok ID, dateTok dd mm yy]).getLast? = some (dateTok dd mm yy) := by
    rw [e2]; exact List.getLast?_concat _
  have hdrop2 : (T ++ [idTok ID, dateTok dd mm yy]).dropLast = T ++ [idTok ID] := by
    rw [e2]; exact List.dropLast_concat
  have hthird : (T ++ [idTok ID]).getLast? = some (idTok ID) := List.getLast?_concat _
  have hdrop3 : (T ++ [idTok ID]).dropLast = T := List.dropLast_concat
  have hstart : (timeTok hh mi ss).head? ≠ some '(' := by
    have hhd : (timeTok hh mi ss).head? = some (Nat.digitChar (hh / 10)) := rfl
    rw [hhd]
    intro hcon
    exact (digitChar_spec (hh / 10) (by omega)).2.2.1 (Option.some.inj hcon)
  have hend : (timeTok hh mi ss).getLast? = some ')' := by
    show ((pad2 hh ++ ':' :: (pad2 mi ++ ':' :: pad2 ss)) ++ [')']).getLast? = some ')'
    exact List.getLast?_concat _
  rw [parse_toks_date_branch now _ (timeTok hh mi ss) (dateTok dd mm yy) (idTok ID)
    hlast (by rw [hdrop1]; exact hpen) (by rw [hdrop1, hdrop2]; exact hthird)
    hstart hend]
  rw [hdrop1, hdrop2, hdrop3]
  have hstripP : stripParens (idTok ID) = stripParens ID := by
    simp [stripParens, idTok, List.filter_append]
  have hstripL : stripLParen (dateTok dd mm yy)
      = pad2 dd ++ '-' :: (pad2 mm ++ '-' :: pad4 yy) := by
    simp only [stripLParen, dateTok, List.filter_cons]
    have hpar : (decide ¬('(' = '(')) = false := by decide
    simp only [hpar]
    refine List.filter_eq_self.mpr ?_
    intro a ha
    have := (dateStr_chars dd mm yy hdd99 (by omega) (by omega) a ha).2.1
    simpa using this
  have hstripR : stripRParen (timeTok hh mi ss)
      = pad2 hh ++ ':' :: (pad2 mi ++ ':' :: pad2 ss) := by
    unfold stripRParen timeTok
    rw [List.filter_append]
    have hfe : List.filter (fun c => decide (c ≠ ')'))
        (pad2 hh ++ ':' :: (pad2 mi ++ ':' :: pad2 ss))
        = pad2 hh ++ ':' :: (pad2 mi ++ ':' :: pad2 ss) := by
      refine List.filter_eq_self.mpr ?_
      intro a ha
      have := (timeStr_chars hh mi ss (by omega) (by omega) (by omega) a ha).2.2
      simpa using this
    rw [hfe]
    simp
  rw [hstripP, hstripL, hstripR]
  have hassoc : (pad2 dd ++ '-' :: (pad2 mm ++ '-' :: pad4 yy)) ++ ' ' ::
      (pad2 hh ++ ':' :: (pad2 mi ++ ':' :: pad2 ss))
      = pad2 dd ++ '-' :: (pad2 mm ++ '-' :: (pad4 yy ++ ' ' ::
        (pad2 hh ++ ':' :: (pad2 mi ++ ':' :: pad2 ss)))) := by
    simp
  rw [hassoc, pyDateRoundtrip_ok dd mm yy hh mi ss h1 h2 h3 h4 h5 h6 h7 h8 h9]
  rfl

/-- Witness for C6 at `"Graticule (REF-001) (03-11-2008 15:07:44)"`. -/
theorem C6_witness :
    parse_name now0
      (joinToks (["Graticule".data] ++ [idTok "REF-001".data, dateTok 3 11 2008,
        timeTok 15 7 44]))
      = some (joinToks ["Graticule".data], some (pyLower (stripParens "REF-001".data)),
          isoFmt 2008 11 3 15 7 44) :=
  C6_dated_shape_exact now0 ["Graticule".data] "REF-001".data 3 11 2008 15 7 44
    (by decide) (by decide) (by decide) (by decide) (by decide) (by decide)
    (by decide) (by decide) (by decide) (by decide) (by decide) (by decide)

/-- C10 counterexample: `layer1` and `layer2` carry the same display title
but different identifier fields, yet the mapper assigns both the same
dataset key — the key is derived from the parsed title, and the
identifier-field / public-name derivation is never used for it. -/
theorem C10_cex_same_title_same_key :
    draftName? (wxs_to_dict slug_id bbox0 now0 layer1 "u" (fun _ => none)
        (fun _ => none) (fun _ => none) none "WMS") = some "Foo" ∧
    draftName? (wxs_to_dict slug_id bbox0 now0 layer2 "u" (fun _ => none)
        (fun _ => none) (fun _ => none) none "WMS") = some "Foo" ∧
    layer1.name? ≠ layer2.name? :=
  ⟨by decide, by decide, by decide⟩

/-- C10 amended: whenever the mapper returns a record, its dataset key is
`slugify` of the title parsed out of the layer's display title; the layer's
identifier field does not enter the key, so equal display titles give equal
keys. -/
theorem C10_amended_key_is_slug_of_parsed_title {B : Type} (slugify : String → String)
    (bboxToGj : B → String) (now : List Char) (layer : Layer B) (wxs_url : String)
    (org_dict : String → Option OrgEntry) (group_dict : String → Option GroupEntry)
    (pdf_dict : String → Option String) (fallback_org_id : Option String)
    (res_format : String) (d : PackageDraft)
    (h : wxs_to_dict slugify bboxToGj now layer wxs_url org_dict group_dict pdf_dict
          fallback_org_id res_format = Except.ok (some d)) :
    d.name = slugify d.title ∧
    (parse_name now layer.title.data).map (fun r => r.1) = some d.title.data := by
  unfold wxs_to_dict at h
  cases hn : (match layer.name? with
              | some nm => some nm
              | none => make_dataset_name layer.id) with
  | none => simp [hn] at h
  | some nval =>
    simp only [hn] at h
    cases hp : parse_name now layer.title.data with
    | none => simp [hp] at h
    | some trip =>
      simp only [hp] at h
      obtain ⟨tc, nc?, dc⟩ := trip
      split at h
      · simp at h
      · split at h
        · exact absurd h (by simp)
        · rw [Except.ok.injEq, Option.some.injEq] at h
          subst h
          exact ⟨rfl, rfl⟩

/-- Witness for C10: on `layer1` the mapper returns `draft1`, whose key is
the slug of its parsed title. -/
theorem C10_witness :
    draft1.name = slug_id draft1.title ∧
    (parse_name now0 layer1.title.data).map (fun r => r.1) = some draft1.title.data :=
  C10_amended_key_is_slug_of_parsed_title slug_id bbox0 now0 layer1 "u"
    (fun _ => none) (fun _ => none) (fun _ => none) none "WMS" draft1 (by rfl)

/-- Witness for C7: a title ending in a parenthesized identifier yields a
non-`None` identifier. -/
theorem C7_witness :
    (("Graticule".data, some "ref-001".data, now0) :
        List Char × Option (List Char) × List Char).2.1 = none ↔
      ("(REF-001)".data).getLast? ≠ some ')' :=
  C7_amended_identifier_iff_last_token_rparen now0 "Graticule (REF-001)".data
    ("Graticule".data, some "ref-001".data, now0) (by decide)
    "(REF-001)".data (by decide)

end Harvesters
